import Mathlib

/-!
Shallow embedding of the podcast feed builder of
src/internal/services/generator.go (package services of
ikoyhn/go-podcast-sponsor-block, a vendored copy of eduncan911/podcast).

Representation choices, stated once:
* Go strings become Lean String; `len(s) == 0` tests become `s.length = 0`
  (both hold exactly for the empty string), and the rune operations
  (utf8.RuneCountInString, []rune slicing) become String.length and
  List.take on String.data, which is the same count of Unicode scalar
  values.
* Go int64 / int become Int (no operation here overflows 64 bits on the
  inputs the claims quantify over, and the source does no wrapping
  arithmetic); Go integer division and remainder truncate toward zero, so
  they become Int.tdiv and Int.tmod.
* nil-able pointers become Option; the Go zero value of a struct field is
  the empty string, 0, or none.
* time.Time is abstract here (abbrev Time := Int): the only use the claims
  touch is passing a value through the package-level hook
  parseDateRFC1123Z, which the source declares as a replaceable function
  variable and which reads the wall clock; it is therefore a parameter
  (named parseDateRFC1123Z) of the operations that call it.
* (int, error) results become a record carrying the receiver after the
  call, the returned count and the returned error message; error values
  are modelled by their message text, and errors.Wrap by prefixing
  "msg: " as pkg/errors renders it.
* the io.Writer given to Encode is modelled by the outcome of the two
  writes Encode performs on it: the result of writing the XML declaration
  (Except String Unit) and the result of the rendering strategy stored in
  the podcast's encode field (Except String String: the error, or the text
  the strategy renders), both passed as explicit parameters.
-/

abbrev Time := Int

def pVersion : String := "1.3.1"

/-- AtomLink represents the Atom reference link (field Type renamed Type',
Type being a Lean keyword). -/
structure AtomLink where
  HREF : String
  Rel : String
  Type' : String
deriving DecidableEq

/-- Author is the itunes:owner name/email pair. -/
structure Author where
  Name : String
  Email : String
deriving DecidableEq

/-- EnclosureType is a Go int; the named constants are 0..6. -/
abbrev EnclosureType := Int

def M4A : EnclosureType := 0
def M4V : EnclosureType := 1
def MP4 : EnclosureType := 2
def MP3 : EnclosureType := 3
def MOV : EnclosureType := 4
def PDF : EnclosureType := 5
def EPUB : EnclosureType := 6

def enclosureDefault : String := "application/octet-stream"

/-- String returns the MIME type encoding of the specified EnclosureType;
any value outside the enumerated constants falls through to
enclosureDefault. -/
def EnclosureType.String (et : EnclosureType) : String :=
  if et = 0 then "audio/x-m4a"
  else if et = 1 then "video/x-m4v"
  else if et = 2 then "video/mp4"
  else if et = 3 then "audio/mpeg"
  else if et = 4 then "video/quicktime"
  else if et = 5 then "application/pdf"
  else if et = 6 then "document/x-epub"
  else enclosureDefault

/-- Enclosure represents a download enclosure (field Type renamed Type'). -/
structure Enclosure where
  URL : String
  Length : Int
  LengthFormatted : String
  Type' : EnclosureType
  TypeFormatted : String
deriving DecidableEq

/-- Image represents an RSS channel image. -/
structure Image where
  URL : String
  Title : String
  Link : String
  Description : String
  Width : Int
  Height : Int
deriving DecidableEq

/-- IImage represents an iTunes image. -/
structure IImage where
  HREF : String
deriving DecidableEq

/-- ISummary is the rich-text field rendered as CDATA. -/
structure ISummary where
  Text : String
deriving DecidableEq

/-- ICategory is the 2-tier classification system for iTunes: a text
attribute and nested child categories. -/
inductive ICategory where
  | mk (Text : String) (ICategories : List ICategory)

def ICategory.Text : ICategory → String
  | .mk t _ => t

def ICategory.ICategories : ICategory → List ICategory
  | .mk _ cs => cs

/-- TextInput represents text inputs. -/
structure TextInput where
  Title : String
  Description : String
  Name : String
  Link : String
deriving DecidableEq

/-- Item represents a single entry in a podcast. -/
structure Item where
  GUID : String
  Title : String
  Link : String
  Description : String
  Author : Option Author
  AuthorFormatted : String
  Category : String
  Comments : String
  Source : String
  PubDate : Option Time
  PubDateFormatted : String
  Enclosure : Option Enclosure
  IAuthor : String
  ISubtitle : String
  ISummary : Option ISummary
  IImage : Option IImage
  IDuration : String
  IExplicit : String
  IIsClosedCaptioned : String
  IOrder : String
deriving DecidableEq

/-- Podcast represents a podcast: the channel-level state the builder
accumulates.  The Go struct's unexported encode field (the rendering
strategy New installs) is a function value and is passed to Encode and
String as an explicit parameter instead. -/
structure Podcast where
  Title : String
  Link : String
  Description : String
  Category : String
  Cloud : String
  Copyright : String
  Docs : String
  Generator : String
  Language : String
  LastBuildDate : String
  ManagingEditor : String
  PubDate : String
  Rating : String
  SkipHours : String
  SkipDays : String
  TTL : Int
  WebMaster : String
  Image : Option Image
  TextInput : Option TextInput
  AtomLink : Option AtomLink
  IAuthor : String
  ISubtitle : String
  ISummary : Option ISummary
  IBlock : String
  IImage : Option IImage
  IDuration : String
  IExplicit : String
  IComplete : String
  INewFeedURL : String
  IOwner : Option Author
  ICategories : List ICategory
  Items : List Item

/-- parseAuthorNameEmail renders an optional Author: the email alone, or
"email (name)" when the name is non-empty; nil gives the empty string. -/
def parseAuthorNameEmail : Option Author → String
  | none => ""
  | some a => if a.Name.length > 0 then a.Email ++ " (" ++ a.Name ++ ")" else a.Email

/-- Go fmt's %02d on the values this file prints: left-pad with one zero
exactly when the value is a single digit. -/
def pad2 (n : Int) : String :=
  if 0 ≤ n ∧ n < 10 then "0" ++ toString n else toString n

/-- parseDuration decomposes a second count into hours/minutes/seconds and
picks one of the four layouts of the source (HH:MM:SS, H:MM:SS, MM:SS,
M:SS). -/
def parseDuration (duration : Int) : String :=
  let h := duration.tdiv 3600
  let d1 := duration.tmod 3600
  let m := d1.tdiv 60
  let s := d1.tmod 60
  if h > 9 then pad2 h ++ ":" ++ pad2 m ++ ":" ++ pad2 s
  else if h > 0 then toString h ++ ":" ++ pad2 m ++ ":" ++ pad2 s
  else if m > 9 then pad2 m ++ ":" ++ pad2 s
  else toString m ++ ":" ++ pad2 s

/-- AddEnclosure adds the downloadable asset to the podcast Item, always
overwriting any previous enclosure; the formatted fields start at their
Go zero value. -/
def Item.AddEnclosure (i : Item) (url : String) (enclosureType : EnclosureType)
    (lengthInBytes : Int) : Item :=
  { i with Enclosure := some ({ URL := url, Type' := enclosureType, Length := lengthInBytes, LengthFormatted := "", TypeFormatted := "" }) }

/-- AddImage adds the image as an iTunes-only IImage; no-op on an empty
url. -/
def Item.AddImage (i : Item) (url : String) : Item :=
  if url.length > 0 then { i with IImage := some { HREF := url } } else i

/-- AddPubDate stores the raw datetime and its formatted string
(parseDateRFC1123Z is the source's replaceable formatting hook). -/
def Item.AddPubDate (parseDateRFC1123Z : Option Time → String) (i : Item)
    (datetime : Option Time) : Item :=
  { i with PubDate := datetime, PubDateFormatted := parseDateRFC1123Z datetime }

/-- AddSummary on an Item truncates to the first 4000 runes when longer and
then unconditionally stores the summary record. -/
def Item.AddSummary (i : Item) (summary : String) : Item :=
  let count := summary.length
  let summary := if count > 4000 then String.mk (summary.data.take 4000) else summary
  { i with ISummary := some { Text := summary } }

/-- AddDuration stores the formatted duration; no-op when the input is not
positive. -/
def Item.AddDuration (i : Item) (durationInSeconds : Int) : Item :=
  if durationInSeconds ≤ 0 then i
  else { i with IDuration := parseDuration durationInSeconds }

/-- New instantiates a Podcast with required parameters; every other field
starts at its Go zero value, with the generator string, formatted dates
and default language filled in. -/
def New (parseDateRFC1123Z : Option Time → String) (title link description : String)
    (pubDate lastBuildDate : Option Time) : Podcast :=
  { Title := title, Link := link, Description := description,
    Category := "", Cloud := "", Copyright := "", Docs := "",
    Generator := "go podcast v" ++ pVersion ++ " (github.com/eduncan911/podcast)",
    Language := "en-us",
    LastBuildDate := parseDateRFC1123Z lastBuildDate,
    ManagingEditor := "",
    PubDate := parseDateRFC1123Z pubDate,
    Rating := "", SkipHours := "", SkipDays := "", TTL := 0, WebMaster := "",
    Image := none, TextInput := none, AtomLink := none,
    IAuthor := "", ISubtitle := "", ISummary := none, IBlock := "",
    IImage := none, IDuration := "", IExplicit := "", IComplete := "",
    INewFeedURL := "", IOwner := none, ICategories := [], Items := [] }

/-- AddAuthor sets ManagingEditor and IAuthor to the formatted author;
no-op when the email is empty. -/
def Podcast.AddAuthor (p : Podcast) (name email : String) : Podcast :=
  if email.length = 0 then p
  else
    let me := parseAuthorNameEmail (some { Name := name, Email := email })
    { p with ManagingEditor := me, IAuthor := me }

/-- AddAtomLink records the self-referencing link; no-op when href is
empty. -/
def Podcast.AddAtomLink (p : Podcast) (href : String) : Podcast :=
  if href.length = 0 then p
  else { p with AtomLink := some { HREF := href, Rel := "self", Type' := "application/rss+xml" } }

/-- AddCategory appends to the comma-joined RSS category string and appends
one new ICategory node whose children are the non-empty subcategories, in
order (the source's range loop); no-op when the category is empty. -/
def Podcast.AddCategory (p : Podcast) (category : String) (subCategories : List String) : Podcast :=
  if category.length = 0 then p
  else
    let cat := if p.Category.length > 0 then p.Category ++ "," ++ category else category
    let children := subCategories.foldl
      (fun acc c => if c.length = 0 then acc else acc ++ [ICategory.mk c []]) []
    { p with Category := cat,
             ICategories := p.ICategories ++ [ICategory.mk category children] }

/-- AddImage sets the feed-level Image (title and link copied from the
feed) and the iTunes image; no-op when the url is empty. -/
def Podcast.AddImage (p : Podcast) (url : String) : Podcast :=
  if url.length = 0 then p
  else
    { p with
      Image := some { URL := url, Title := p.Title, Link := p.Link,
                      Description := "", Width := 0, Height := 0 },
      IImage := some { HREF := url } }

/-- addItemValidate is AddItem's initial guard block: the validation error
it returns early with, or none when the item passes. -/
def addItemValidate (i : Item) : Option String :=
  if i.Title.length = 0 ∨ i.Description.length = 0 then
    some "Title and Description are required"
  else
    match i.Enclosure with
    | some enc =>
      if enc.URL.length = 0 then some (i.Title ++ ": Enclosure.URL is required")
      else if EnclosureType.String enc.Type' = enclosureDefault then
        some (i.Title ++ ": Enclosure.Type is required")
      else none
    | none =>
      if i.Link.length = 0 then some (i.Title ++ ": Link is required when not using Enclosure")
      else none

/-- itemOverrideDates is the first override block of AddItem: recompute
PubDateFormatted and AuthorFormatted. -/
def itemOverrideDates (parseDateRFC1123Z : Option Time → String) (i : Item) : Item :=
  { i with PubDateFormatted := parseDateRFC1123Z i.PubDate,
           AuthorFormatted := parseAuthorNameEmail i.Author }

/-- itemOverrideEnclosure is the enclosure block of AddItem: with an
enclosure, default an unset GUID to the enclosure URL, clamp a negative
length to 0, recompute the formatted length and type, and default an empty
Link to the enclosure URL; without one, overwrite GUID with Link. -/
def itemOverrideEnclosure (i : Item) : Item :=
  match i.Enclosure with
  | some enc =>
    let i := if i.GUID.length = 0 then { i with GUID := enc.URL } else i
    let len : Int := if enc.Length < 0 then 0 else enc.Length
    let enc2 := { enc with Length := len, LengthFormatted := toString len,
                           TypeFormatted := EnclosureType.String enc.Type' }
    let i := { i with Enclosure := some enc2 }
    if i.Link.length = 0 then { i with Link := enc2.URL } else i
  | none => { i with GUID := i.Link }

/-- itemInheritAuthor is the iTunes author switch of AddItem: when IAuthor
is empty, take the item's own Author's email if the Author is present,
else the feed's IAuthor, else the feed's ManagingEditor (the two feed
cases also install an Author record). -/
def itemInheritAuthor (p : Podcast) (i : Item) : Item :=
  if i.IAuthor.length = 0 then
    match i.Author with
    | some a => { i with IAuthor := a.Email }
    | none =>
      if p.IAuthor.length ≠ 0 then
        { i with Author := some { Name := "", Email := p.IAuthor }, IAuthor := p.IAuthor }
      else if p.ManagingEditor.length ≠ 0 then
        { i with Author := some { Name := "", Email := p.ManagingEditor }, IAuthor := p.ManagingEditor }
      else i
  else i

/-- itemInheritImage is the image-inheritance block of AddItem: an item
without an IImage inherits the feed image's URL when the feed has one. -/
def itemInheritImage (p : Podcast) (i : Item) : Item :=
  match i.IImage with
  | none =>
    match p.Image with
    | some img => { i with IImage := some { HREF := img.URL } }
    | none => i
  | some _ => i

/-- addItemFinalize is the whole post-validation part of AddItem, in source
order: date/author overrides, enclosure overrides, iTunes author
inheritance, image inheritance. -/
def addItemFinalize (parseDateRFC1123Z : Option Time → String) (p : Podcast) (i : Item) : Item :=
  itemInheritImage p (itemInheritAuthor p (itemOverrideEnclosure (itemOverrideDates parseDateRFC1123Z i)))

/-- AddItemResult is the observable outcome of AddItem: the receiver after
the call, the returned count and the returned error message. -/
structure AddItemResult where
  podcast : Podcast
  count : Nat
  err : Option String

/-- AddItem adds the podcast episode: validate, apply the corrective
actions and overrides, append, and return the new count; on a validation
error the receiver is unchanged and the prior count is returned. -/
def Podcast.AddItem (parseDateRFC1123Z : Option Time → String) (p : Podcast) (i : Item) : AddItemResult :=
  match addItemValidate i with
  | some e => { podcast := p, count := p.Items.length, err := some e }
  | none =>
    let j := addItemFinalize parseDateRFC1123Z p i
    { podcast := { p with Items := p.Items ++ [j] },
      count := p.Items.length + 1, err := none }

/-- AddPubDate reformats and overwrites the channel publish date. -/
def Podcast.AddPubDate (parseDateRFC1123Z : Option Time → String) (p : Podcast)
    (datetime : Option Time) : Podcast :=
  { p with PubDate := parseDateRFC1123Z datetime }

/-- AddLastBuildDate reformats and overwrites the channel build date. -/
def Podcast.AddLastBuildDate (parseDateRFC1123Z : Option Time → String) (p : Podcast)
    (datetime : Option Time) : Podcast :=
  { p with LastBuildDate := parseDateRFC1123Z datetime }

/-- AddSubTitle stores the iTunes subtitle: no-op when empty, truncated to
the first 61 runes plus "..." when over 64 runes. -/
def Podcast.AddSubTitle (p : Podcast) (subTitle : String) : Podcast :=
  let count := subTitle.length
  if count = 0 then p
  else
    let subTitle := if count > 64 then String.mk (subTitle.data.take 61) ++ "..." else subTitle
    { p with ISubtitle := subTitle }

/-- AddSummary stores the iTunes summary record: no-op when empty,
truncated to the first 4000 runes when longer. -/
def Podcast.AddSummary (p : Podcast) (summary : String) : Podcast :=
  let count := summary.length
  if count = 0 then p
  else
    let summary := if count > 4000 then String.mk (summary.data.take 4000) else summary
    { p with ISummary := some { Text := summary } }

/-- podcastWrapper is the rss envelope Encode builds: version attribute,
the three namespace attributes and the channel. -/
structure podcastWrapper where
  Version : String
  ATOMNS : String
  ITUNESNS : String
  CONTENTNS : String
  Channel : Podcast

/-- attrs is the attribute list encoding/xml emits on the rss root element
for podcastWrapper's struct tags, in field order: version (always),
xmlns:atom (tagged omitempty, so dropped entirely when the string is
empty), xmlns:itunes and xmlns:content (always). -/
def podcastWrapper.attrs (w : podcastWrapper) : List (String × String) :=
  [("version", w.Version)]
  ++ (if w.ATOMNS.length = 0 then [] else [("xmlns:atom", w.ATOMNS)])
  ++ [("xmlns:itunes", w.ITUNESNS), ("xmlns:content", w.CONTENTNS)]

def xmlDeclHeader : String := "<?xml version=\"1.0\" encoding=\"UTF-8\"?>\n"

/-- wrapPodcast is the envelope value Encode constructs: version "2.0",
the iTunes and content namespaces always, and the Atom namespace exactly
when an AtomLink was set (empty string otherwise, which omitempty drops). -/
def wrapPodcast (p : Podcast) : podcastWrapper :=
  { ITUNESNS := "http://www.itunes.com/dtds/podcast-1.0.dtd",
    ATOMNS := if p.AtomLink.isSome then "http://www.w3.org/2005/Atom" else "",
    CONTENTNS := "http://purl.org/rss/1.0/modules/content/",
    Version := "2.0",
    Channel := p }

/-- Encode writes the fixed XML declaration and then hands the wrapped
feed to the rendering strategy.  declWrite is the outcome of writing the
declaration to the stream; a failure there is returned wrapped with
errors.Wrap's annotation, a strategy failure is returned as the strategy
produced it, and on success the output is the declaration followed by the
strategy's rendering. -/
def Podcast.Encode (declWrite : Except String Unit)
    (strategy : podcastWrapper → Except String String) (p : Podcast) : Except String String :=
  match declWrite with
  | .error e => .error ("podcast.Encode: w.Write return error: " ++ e)
  | .ok _ =>
    match strategy (wrapPodcast p) with
    | .error e => .error e
    | .ok out => .ok (xmlDeclHeader ++ out)

/-- String encodes the Podcast state to a string through an in-memory
buffer (whose writes never fail), turning an Encode failure into the
literal error text rather than a failure signal. -/
def Podcast.String (strategy : podcastWrapper → Except String String) (p : Podcast) : String :=
  match Podcast.Encode (Except.ok ()) strategy p with
  | .error e => "String: podcast.write returned the error: " ++ e
  | .ok out => out
/-! Concrete fixtures: a fixed date-formatting hook (the hook's output is
irrelevant to every claim), a feed made by New, the Go zero-value Item,
and items matching the specification's examples. -/

def fmtW : Option Time → String := fun _ => "Mon, 02 Jan 2006 15:04:05 +0000"

def pW : Podcast := New fmtW "title" "https://example.com/" "desc" none none

/-- Go zero value of Item. -/
def emptyItem : Item :=
  { GUID := "", Title := "", Link := "", Description := "", Author := none,
    AuthorFormatted := "", Category := "", Comments := "", Source := "",
    PubDate := none, PubDateFormatted := "", Enclosure := none, IAuthor := "",
    ISubtitle := "", ISummary := none, IImage := none, IDuration := "",
    IExplicit := "", IIsClosedCaptioned := "", IOrder := "" }

def encW : Enclosure :=
  { URL := "https://x/e1.mp3", Length := 100, LengthFormatted := "",
    Type' := MP3, TypeFormatted := "" }

def iEnc : Item := { emptyItem with Title := "t", Description := "d", Enclosure := some encW }

def iLink : Item := { emptyItem with Title := "t", Description := "d", Link := "https://x/a1" }

def iCustomGuid : Item := { iEnc with GUID := "custom-guid" }

def pFeedAuthor : Podcast := { pW with IAuthor := "feed@example.com" }

def iEmptyEmailAuthor : Item := { iLink with Author := some ({ Name := "bob", Email := "" }) }

def strategyW : podcastWrapper → Except String String := fun _ => Except.ok "<rss/>"

/-- rejectsSpec is the validation condition exactly as claim C1 words it
(spec-side definition, to be compared with the source's addItemValidate):
empty Title or Description; or an Enclosure present whose URL is empty or
whose type resolves to the registry's default sentinel; or no Enclosure
and an empty Link. -/
def rejectsSpec (i : Item) : Bool :=
  decide (i.Title.length = 0) || decide (i.Description.length = 0) ||
  (match i.Enclosure with
   | some enc =>
     decide (enc.URL.length = 0) || decide (EnclosureType.String enc.Type' = enclosureDefault)
   | none => decide (i.Link.length = 0))

/-- Claim C5: Item.AddDuration ignores non-positive inputs; a positive
input is decomposed into hours h, minutes m and seconds s (the unique
Euclidean decomposition) and stored as two-digit-padded HH:MM:SS when
h is over 9, H:MM:SS when 0 < h at most 9, MM:SS when h = 0 and m over 9,
and M:SS otherwise, giving 1:01 for 61, 11:01 for 661, 1:01:01 for 3661
and 10:00:00 for 36000. -/
theorem addDuration_layouts (i : Item) (d : Int) :
    (d ≤ 0 → i.AddDuration d = i)
    ∧ (0 < d → ∃ h m s : Int,
        d = 3600 * h + 60 * m + s ∧ 0 ≤ h ∧ 0 ≤ m ∧ m < 60 ∧ 0 ≤ s ∧ s < 60 ∧
        (i.AddDuration d).IDuration =
          (if 9 < h then pad2 h ++ ":" ++ pad2 m ++ ":" ++ pad2 s
           else if 0 < h then toString h ++ ":" ++ pad2 m ++ ":" ++ pad2 s
           else if 9 < m then pad2 m ++ ":" ++ pad2 s
           else toString m ++ ":" ++ pad2 s))
    ∧ (emptyItem.AddDuration 61).IDuration = "1:01"
    ∧ (emptyItem.AddDuration 661).IDuration = "11:01"
    ∧ (emptyItem.AddDuration 3661).IDuration = "1:01:01"
    ∧ (emptyItem.AddDuration 36000).IDuration = "10:00:00" := by
  refine ⟨fun hle => ?_, fun hpos => ?_, rfl, rfl, rfl, rfl⟩
  · simp only [Item.AddDuration, if_pos hle]
  · refine ⟨d.tdiv 3600, (d.tmod 3600).tdiv 60, (d.tmod 3600).tmod 60, ?_, ?_, ?_, ?_, ?_, ?_, ?_⟩
    · have h1 := Int.tdiv_add_tmod d 3600
      have h2 := Int.tdiv_add_tmod (d.tmod 3600) 60
      omega
    · exact Int.tdiv_nonneg (le_of_lt hpos) (by norm_num)
    · exact Int.tdiv_nonneg (Int.tmod_nonneg _ (le_of_lt hpos)) (by norm_num)
    · have h2 := Int.tdiv_add_tmod (d.tmod 3600) 60
      have hlt := Int.tmod_lt_of_pos d (show (0 : Int) < 3600 by norm_num)
      have hs0 := Int.tmod_nonneg (b := 60) (Int.tmod_nonneg (b := 3600) (le_of_lt hpos))
      omega
    · exact Int.tmod_nonneg _ (Int.tmod_nonneg _ (le_of_lt hpos))
    · exact Int.tmod_lt_of_pos _ (by norm_num)
    · simp only [Item.AddDuration, if_neg (not_le.mpr hpos)]
      rfl

/-- Claim C6 counterexample: the feed-level summary setter applied to the
empty string is a no-op (the stored summary stays absent), not a store of
an empty summary text as the claim's universal wording requires. -/
theorem addSummary_empty_refutes :
    pW.ISummary = none ∧ (pW.AddSummary "").ISummary = none
    ∧ ¬ (pW.AddSummary "").ISummary = some ({ Text := "" }) := by
  refine ⟨rfl, rfl, by decide⟩

/-- Claim C6 (amended): for non-empty input, Podcast.AddSummary stores the
text unchanged up to 4000 runes and exactly the first 4000 runes beyond
that, and Podcast.AddSubTitle stores the text unchanged up to 64 runes and
exactly the first 61 runes plus the 3-character ellipsis beyond that (64
runes in total); empty input leaves both feeds unchanged. -/
theorem truncation_rules (p : Podcast) (s : String) :
    (s.length = 0 → p.AddSummary s = p ∧ p.AddSubTitle s = p)
    ∧ (s.length ≠ 0 → s.length ≤ 4000 → (p.AddSummary s).ISummary = some ({ Text := s }))
    ∧ (4000 < s.length →
        (p.AddSummary s).ISummary = some ({ Text := String.mk (s.data.take 4000) })
        ∧ (String.mk (s.data.take 4000)).length = 4000)
    ∧ (s.length ≠ 0 → s.length ≤ 64 → (p.AddSubTitle s).ISubtitle = s)
    ∧ (64 < s.length →
        (p.AddSubTitle s).ISubtitle = String.mk (s.data.take 61) ++ "..."
        ∧ (String.mk (s.data.take 61) ++ "...").length = 64) := by
  have hdata : s.length = s.data.length := rfl
  refine ⟨fun h0 => ⟨?_, ?_⟩, fun hne hle => ?_, fun hgt => ⟨?_, ?_⟩, fun hne hle => ?_, fun hgt => ⟨?_, ?_⟩⟩
  · simp only [Podcast.AddSummary, if_pos h0]
  · simp only [Podcast.AddSubTitle, if_pos h0]
  · simp only [Podcast.AddSummary, if_neg hne, if_neg (by omega : ¬ s.length > 4000)]
  · simp only [Podcast.AddSummary, if_neg (by omega : ¬ s.length = 0), if_pos (by omega : s.length > 4000)]
  · have : (String.mk (s.data.take 4000)).length = (s.data.take 4000).length := rfl
    rw [this, List.length_take]
    omega
  · simp only [Podcast.AddSubTitle, if_neg hne, if_neg (by omega : ¬ s.length > 64)]
  · simp only [Podcast.AddSubTitle, if_neg (by omega : ¬ s.length = 0), if_pos (by omega : s.length > 64)]
  · rw [String.length_append]
    have : (String.mk (s.data.take 61)).length = (s.data.take 61).length := rfl
    rw [this, List.length_take]
    have : ("..." : String).length = 3 := rfl
    omega

/-- List fold of the source's subcategory loop equals keeping the
non-empty subcategories in order, each as a childless node. -/
theorem foldl_subcategories (l : List String) (acc : List ICategory) :
    l.foldl (fun acc c => if c.length = 0 then acc else acc ++ [ICategory.mk c []]) acc
      = acc ++ (l.filter (fun c => c.length != 0)).map (fun c => ICategory.mk c []) := by
  induction l generalizing acc with
  | nil => simp
  | cons x xs ih =>
    simp only [List.foldl_cons, List.filter_cons]
    by_cases h : x.length = 0
    · simp [h, ih]
    · simp [h, ih]

/-- Claim C7: AddCategory with a non-empty category appends to the
comma-joined RSS category string (never replaces it) and appends exactly
one new tree node whose children are the non-empty subcategories; with an
empty category it is a no-op; and adding A then B to a fresh feed yields
category text A,B and two tree nodes. -/
theorem addCategory_cumulative (p : Podcast) (category : String) (subs : List String) :
    (category.length = 0 → p.AddCategory category subs = p)
    ∧ (category.length ≠ 0 →
        (p.AddCategory category subs).Category
          = (if 0 < p.Category.length then p.Category ++ "," ++ category else category)
        ∧ (p.AddCategory category subs).ICategories
          = p.ICategories
            ++ [ICategory.mk category ((subs.filter (fun c => c.length != 0)).map (fun c => ICategory.mk c []))])
    ∧ ((pW.AddCategory "A" []).AddCategory "B" []).Category = "A,B"
    ∧ ((pW.AddCategory "A" []).AddCategory "B" []).ICategories.length = 2 := by
  refine ⟨fun h0 => ?_, fun hne => ⟨?_, ?_⟩, rfl, rfl⟩
  · simp only [Podcast.AddCategory, if_pos h0]
  · simp only [Podcast.AddCategory, if_neg hne]
  · simp only [Podcast.AddCategory, if_neg hne, foldl_subcategories, List.nil_append]

/-- Claim C8: the envelope Encode builds carries version 2.0, the iTunes
and content-module namespaces always, and the Atom namespace attribute
exactly when an AtomLink is set (the xmlns:atom attribute is absent from
the emitted attribute list otherwise, never present with an empty value);
Encode prepends the fixed XML declaration to the strategy's rendering of
that envelope. -/
theorem encode_envelope (p : Podcast) (strategy : podcastWrapper → Except String String) :
    (wrapPodcast p).Version = "2.0"
    ∧ (wrapPodcast p).ITUNESNS = "http://www.itunes.com/dtds/podcast-1.0.dtd"
    ∧ (wrapPodcast p).CONTENTNS = "http://purl.org/rss/1.0/modules/content/"
    ∧ (wrapPodcast p).Channel = p
    ∧ (wrapPodcast p).attrs
        = [("version", "2.0")]
          ++ (if p.AtomLink.isSome then [("xmlns:atom", "http://www.w3.org/2005/Atom")] else [])
          ++ [("xmlns:itunes", "http://www.itunes.com/dtds/podcast-1.0.dtd"),
              ("xmlns:content", "http://purl.org/rss/1.0/modules/content/")]
    ∧ Podcast.Encode (Except.ok ()) strategy p
        = (strategy (wrapPodcast p)).map (fun out => xmlDeclHeader ++ out) := by
  refine ⟨rfl, rfl, rfl, rfl, ?_, ?_⟩
  · cases hp : p.AtomLink with
    | none => simp [wrapPodcast, podcastWrapper.attrs, hp]
    | some a =>
      simp only [wrapPodcast, podcastWrapper.attrs, hp, Option.isSome_some, if_true]
      decide
  · unfold Podcast.Encode
    cases strategy (wrapPodcast p) <;> rfl

/-- Claim C9 counterexample: a failing declaration write is not returned
unchanged by Encode; the returned error is the original wrapped with the
annotation of errors.Wrap. -/
theorem encode_wraps_decl_error :
    Podcast.Encode (Except.error "stream failed") strategyW pW
        = Except.error ("podcast.Encode: w.Write return error: stream failed")
    ∧ Podcast.Encode (Except.error "stream failed") strategyW pW
        ≠ Except.error "stream failed" := by
  refine ⟨rfl, ?_⟩
  intro h
  have := Except.error.inj h
  simp at this

/-- Claim C9 (amended): Encode returns a declaration-write failure wrapped
with the fixed annotation (the original error text preserved, never
swallowed), returns a rendering-strategy failure exactly as produced, and
String never fails: it yields the rendered text on success and embeds the
error description in its output text when the underlying Encode fails. -/
theorem encode_error_paths (p : Podcast) (e : String)
    (strategy : podcastWrapper → Except String String) :
    Podcast.Encode (Except.error e) strategy p
        = Except.error ("podcast.Encode: w.Write return error: " ++ e)
    ∧ (strategy (wrapPodcast p) = Except.error e →
        Podcast.Encode (Except.ok ()) strategy p = Except.error e)
    ∧ Podcast.String strategy p
        = (match strategy (wrapPodcast p) with
           | Except.error err => "String: podcast.write returned the error: " ++ err
           | Except.ok out => xmlDeclHeader ++ out) := by
  refine ⟨rfl, fun h => ?_, ?_⟩
  · simp [Podcast.Encode, h]
  · unfold Podcast.String Podcast.Encode
    cases strategy (wrapPodcast p) <;> rfl

/-- Claim C10: the episode-level summary setter has no empty-input guard:
on the empty string it stores a present, empty summary record, while the
feed-level setter on the empty string is a no-op leaving the field
absent. -/
theorem addSummary_item_feed_contrast (i : Item) (p : Podcast) :
    (i.AddSummary "").ISummary = some ({ Text := "" }) ∧ p.AddSummary "" = p :=
  ⟨rfl, rfl⟩

/-! Stage lemmas: how each block of AddItem's post-validation pipeline
transforms the episode's fields. -/

theorem overrideDates_proj (f : Option Time → String) (i : Item) :
    (itemOverrideDates f i).PubDateFormatted = f i.PubDate
    ∧ (itemOverrideDates f i).AuthorFormatted = parseAuthorNameEmail i.Author
    ∧ (itemOverrideDates f i).GUID = i.GUID
    ∧ (itemOverrideDates f i).Link = i.Link
    ∧ (itemOverrideDates f i).Author = i.Author
    ∧ (itemOverrideDates f i).IAuthor = i.IAuthor
    ∧ (itemOverrideDates f i).Enclosure = i.Enclosure
    ∧ (itemOverrideDates f i).PubDate = i.PubDate :=
  ⟨rfl, rfl, rfl, rfl, rfl, rfl, rfl, rfl⟩

theorem overrideEnclosure_proj (i : Item) :
    (itemOverrideEnclosure i).GUID
        = (match i.Enclosure with
           | some enc => if i.GUID.length = 0 then enc.URL else i.GUID
           | none => i.Link)
    ∧ (itemOverrideEnclosure i).Enclosure
        = i.Enclosure.map (fun enc =>
            { enc with Length := if enc.Length < 0 then 0 else enc.Length,
                       LengthFormatted := toString (if enc.Length < 0 then (0 : Int) else enc.Length),
                       TypeFormatted := EnclosureType.String enc.Type' })
    ∧ (itemOverrideEnclosure i).PubDateFormatted = i.PubDateFormatted
    ∧ (itemOverrideEnclosure i).AuthorFormatted = i.AuthorFormatted
    ∧ (itemOverrideEnclosure i).Author = i.Author
    ∧ (itemOverrideEnclosure i).IAuthor = i.IAuthor
    ∧ (itemOverrideEnclosure i).IImage = i.IImage := by
  refine ⟨?_, ?_, ?_, ?_, ?_, ?_, ?_⟩ <;>
    (cases henc : i.Enclosure <;>
      · simp only [itemOverrideEnclosure, henc, Option.map]
        all_goals split_ifs <;> rfl)

theorem inheritAuthor_proj (p : Podcast) (i : Item) :
    (itemInheritAuthor p i).IAuthor
        = (if i.IAuthor.length = 0 then
            match i.Author with
            | some a => a.Email
            | none =>
              if p.IAuthor.length ≠ 0 then p.IAuthor
              else if p.ManagingEditor.length ≠ 0 then p.ManagingEditor
              else i.IAuthor
          else i.IAuthor)
    ∧ (itemInheritAuthor p i).GUID = i.GUID
    ∧ (itemInheritAuthor p i).PubDateFormatted = i.PubDateFormatted
    ∧ (itemInheritAuthor p i).AuthorFormatted = i.AuthorFormatted
    ∧ (itemInheritAuthor p i).Enclosure = i.Enclosure
    ∧ (itemInheritAuthor p i).IImage = i.IImage := by
  refine ⟨?_, ?_, ?_, ?_, ?_, ?_⟩ <;>
    (unfold itemInheritAuthor; repeat' split) <;> rfl

theorem inheritImage_proj (p : Podcast) (i : Item) :
    (itemInheritImage p i).GUID = i.GUID
    ∧ (itemInheritImage p i).IAuthor = i.IAuthor
    ∧ (itemInheritImage p i).PubDateFormatted = i.PubDateFormatted
    ∧ (itemInheritImage p i).AuthorFormatted = i.AuthorFormatted
    ∧ (itemInheritImage p i).Enclosure = i.Enclosure := by
  refine ⟨?_, ?_, ?_, ?_, ?_⟩ <;>
    (unfold itemInheritImage; repeat' split) <;> rfl

theorem addItemFinalize_proj (f : Option Time → String) (p : Podcast) (i : Item) :
    (addItemFinalize f p i).PubDateFormatted = f i.PubDate
    ∧ (addItemFinalize f p i).AuthorFormatted = parseAuthorNameEmail i.Author
    ∧ (addItemFinalize f p i).GUID
        = (match i.Enclosure with
           | some enc => if i.GUID.length = 0 then enc.URL else i.GUID
           | none => i.Link)
    ∧ (addItemFinalize f p i).Enclosure
        = i.Enclosure.map (fun enc =>
            { enc with Length := if enc.Length < 0 then 0 else enc.Length,
                       LengthFormatted := toString (if enc.Length < 0 then (0 : Int) else enc.Length),
                       TypeFormatted := EnclosureType.String enc.Type' })
    ∧ (addItemFinalize f p i).IAuthor
        = (if i.IAuthor.length = 0 then
            match i.Author with
            | some a => a.Email
            | none =>
              if p.IAuthor.length ≠ 0 then p.IAuthor
              else if p.ManagingEditor.length ≠ 0 then p.ManagingEditor
              else i.IAuthor
          else i.IAuthor) := by
  obtain ⟨d1, d2, d3, d4, d5, d6, d7, d8⟩ := overrideDates_proj f i
  obtain ⟨e1, e2, e3, e4, e5, e6, e7⟩ := overrideEnclosure_proj (itemOverrideDates f i)
  obtain ⟨a1, a2, a3, a4, a5, a6⟩ :=
    inheritAuthor_proj p (itemOverrideEnclosure (itemOverrideDates f i))
  obtain ⟨g1, g2, g3, g4, g5⟩ :=
    inheritImage_proj p (itemInheritAuthor p (itemOverrideEnclosure (itemOverrideDates f i)))
  unfold addItemFinalize
  refine ⟨?_, ?_, ?_, ?_, ?_⟩
  · rw [g3, a3, e3, d1]
  · rw [g4, a4, e4, d2]
  · rw [g1, a2, e1, d3, d4, d7]
  · rw [g5, a5, e2, d7]
  · rw [g2, a1, e6, e5, d5, d6]

/-- AddItem's returned error is exactly the validation outcome. -/
theorem addItem_err (f : Option Time → String) (p : Podcast) (i : Item) :
    (p.AddItem f i).err = addItemValidate i := by
  unfold Podcast.AddItem
  cases hv : addItemValidate i <;> rfl

/-- On a passing validation, AddItem appends exactly the finalized episode
and only touches Items. -/
theorem addItem_items (f : Option Time → String) (p : Podcast) (i : Item)
    (h : addItemValidate i = none) :
    (p.AddItem f i).podcast.Items = p.Items ++ [addItemFinalize f p i] := by
  unfold Podcast.AddItem
  rw [h]

/-- The Go emptiness test on a string is emptiness of the string itself. -/
theorem string_length_eq_zero_iff (s : String) : s.length = 0 ↔ s = "" := by
  constructor
  · intro h
    cases s with
    | mk data =>
      have hd : data = [] := List.length_eq_zero.mp h
      rw [hd]
  · intro h
    rw [h]
    rfl

/-- The source's guard block errors exactly under the specification's
rejection condition. -/
theorem validate_isSome_eq_rejectsSpec (i : Item) :
    (addItemValidate i).isSome = rejectsSpec i := by
  unfold addItemValidate rejectsSpec
  by_cases h1 : i.Title.length = 0
  · simp [h1]
  · by_cases h2 : i.Description.length = 0
    · simp [h1, h2]
    · cases henc : i.Enclosure with
      | some enc =>
        by_cases h3 : enc.URL.length = 0
        · simp [h1, h2, henc, h3]
        · by_cases h4 : EnclosureType.String enc.Type' = enclosureDefault
          · simp [h1, h2, henc, h3, h4]
          · simp [h1, h2, henc, h3, h4]
      | none =>
        by_cases h3 : i.Link.length = 0
        · simp [h1, h2, henc, h3]
        · simp [h1, h2, henc, h3]

/-- Claim C1: AddItem returns a validation error, leaves the feed (hence
the episode sequence) unchanged and returns the prior count exactly when
the episode has an empty Title or Description, or carries an Enclosure
with an empty URL or a type resolving to the default sentinel, or carries
no Enclosure and has an empty Link; in every other case it appends the
finalized episode and returns the incremented count with no error. -/
theorem addItem_rejects_and_appends (f : Option Time → String) (p : Podcast) (i : Item) :
    ((p.AddItem f i).err.isSome = rejectsSpec i)
    ∧ ((p.AddItem f i).podcast
        = if rejectsSpec i then p
          else { p with Items := p.Items ++ [addItemFinalize f p i] })
    ∧ ((p.AddItem f i).count
        = if rejectsSpec i then p.Items.length else p.Items.length + 1) := by
  have hvr : (addItemValidate i).isSome = rejectsSpec i := validate_isSome_eq_rejectsSpec i
  unfold Podcast.AddItem
  cases hv : addItemValidate i with
  | some e =>
    rw [hv] at hvr
    simp only [Option.isSome_some] at hvr
    simp [← hvr]
  | none =>
    rw [hv] at hvr
    simp only [Option.isSome_none] at hvr
    simp [← hvr]

/-- Claim C2: for every accepted episode, an unset GUID with an Enclosure
becomes the Enclosure's URL, and without an Enclosure the stored GUID is
the episode's Link. -/
theorem addItem_guid_derived (f : Option Time → String) (p : Podcast) (i : Item)
    (hok : (p.AddItem f i).err = none) :
    (∀ enc, i.Enclosure = some enc → i.GUID = "" →
        ((p.AddItem f i).podcast.Items.getLast?.map (fun j => j.GUID)) = some enc.URL)
    ∧ (i.Enclosure = none →
        ((p.AddItem f i).podcast.Items.getLast?.map (fun j => j.GUID)) = some i.Link) := by
  have hv : addItemValidate i = none := by rw [← addItem_err f p i]; exact hok
  obtain ⟨_, _, hg, _, _⟩ := addItemFinalize_proj f p i
  constructor
  · intro enc henc hguid
    rw [addItem_items f p i hv, List.getLast?_concat, Option.map_some', hg, henc]
    simp [hguid]
  · intro henc
    rw [addItem_items f p i hv, List.getLast?_concat, Option.map_some', hg, henc]

/-- Claim C2 witness at the specification's example inputs. -/
theorem addItem_guid_derived_check :
    ((pW.AddItem fmtW iEnc).podcast.Items.getLast?.map (fun j => j.GUID))
        = some "https://x/e1.mp3"
    ∧ ((pW.AddItem fmtW iLink).podcast.Items.getLast?.map (fun j => j.GUID))
        = some "https://x/a1" := by
  constructor
  · exact (addItem_guid_derived fmtW pW iEnc rfl).1 encW rfl rfl
  · exact (addItem_guid_derived fmtW pW iLink rfl).2 rfl

/-- Claim C3 counterexample: an accepted episode with an Enclosure and a
caller-supplied non-empty GUID keeps that GUID unchanged, so GUID is not
always recomputed. -/
theorem addItem_custom_guid_survives :
    (pW.AddItem fmtW iCustomGuid).err = none
    ∧ iCustomGuid.GUID = "custom-guid"
    ∧ ((pW.AddItem fmtW iCustomGuid).podcast.Items.getLast?.map (fun j => j.GUID))
        = some "custom-guid" := by
  refine ⟨rfl, rfl, rfl⟩

/-- Claim C3 (amended): for every accepted episode, PubDateFormatted,
AuthorFormatted and the enclosure's LengthFormatted and TypeFormatted are
always recomputed from PubDate, Author, Length and Type; the GUID is
recomputed when it is empty (from the Enclosure URL) and always (from
Link) when there is no Enclosure, but a caller-supplied non-empty GUID
survives when an Enclosure is present. -/
theorem addItem_formatted_overrides (f : Option Time → String) (p : Podcast) (i : Item)
    (hok : (p.AddItem f i).err = none) :
    ∃ j, (p.AddItem f i).podcast.Items.getLast? = some j
      ∧ j.PubDateFormatted = f i.PubDate
      ∧ j.AuthorFormatted = parseAuthorNameEmail i.Author
      ∧ (∀ enc, i.Enclosure = some enc →
          j.Enclosure = some ({ enc with
              Length := if enc.Length < 0 then 0 else enc.Length,
              LengthFormatted := toString (if enc.Length < 0 then (0 : Int) else enc.Length),
              TypeFormatted := EnclosureType.String enc.Type' })
          ∧ j.GUID = (if i.GUID = "" then enc.URL else i.GUID))
      ∧ (i.Enclosure = none → j.GUID = i.Link) := by
  have hv : addItemValidate i = none := by rw [← addItem_err f p i]; exact hok
  obtain ⟨hp, ha, hg, he, _⟩ := addItemFinalize_proj f p i
  refine ⟨addItemFinalize f p i, ?_, hp, ha, ?_, ?_⟩
  · rw [addItem_items f p i hv, List.getLast?_concat]
  · intro enc henc
    constructor
    · rw [he, henc, Option.map_some']
    · simp only [hg, henc]
      by_cases h0 : i.GUID = ""
      · simp [string_length_eq_zero_iff, h0]
      · simp [string_length_eq_zero_iff, h0]
  · intro henc
    simp only [hg, henc]

/-- Claim C3 witness: the amended statement instantiated at the
custom-GUID example. -/
theorem addItem_formatted_overrides_check :
    ∃ j, (pW.AddItem fmtW iCustomGuid).podcast.Items.getLast? = some j
      ∧ j.PubDateFormatted = fmtW iCustomGuid.PubDate
      ∧ j.AuthorFormatted = parseAuthorNameEmail iCustomGuid.Author
      ∧ (∀ enc, iCustomGuid.Enclosure = some enc →
          j.Enclosure = some ({ enc with
              Length := if enc.Length < 0 then 0 else enc.Length,
              LengthFormatted := toString (if enc.Length < 0 then (0 : Int) else enc.Length),
              TypeFormatted := EnclosureType.String enc.Type' })
          ∧ j.GUID = (if iCustomGuid.GUID = "" then enc.URL else iCustomGuid.GUID))
      ∧ (iCustomGuid.Enclosure = none → j.GUID = iCustomGuid.Link) :=
  addItem_formatted_overrides fmtW pW iCustomGuid rfl

/-- Claim C4 counterexample: an accepted episode whose Author record is
present with an empty email, inserted into a feed whose iTunes author is
non-empty, stores an empty iTunes author instead of the feed's non-empty
value, so the chain is on presence of the episode author, not on
non-emptiness of its value. -/
theorem addItem_iauthor_present_empty_email :
    (pFeedAuthor.AddItem fmtW iEmptyEmailAuthor).err = none
    ∧ pFeedAuthor.IAuthor = "feed@example.com"
    ∧ iEmptyEmailAuthor.IAuthor = ""
    ∧ iEmptyEmailAuthor.Author = some ({ Name := "bob", Email := "" })
    ∧ ((pFeedAuthor.AddItem fmtW iEmptyEmailAuthor).podcast.Items.getLast?.map (fun j => j.IAuthor))
        = some ""
    ∧ ((pFeedAuthor.AddItem fmtW iEmptyEmailAuthor).podcast.Items.getLast?.map (fun j => j.IAuthor))
        ≠ some "feed@example.com" := by
  refine ⟨rfl, rfl, rfl, rfl, rfl, ?_⟩
  intro h
  rw [show ((pFeedAuthor.AddItem fmtW iEmptyEmailAuthor).podcast.Items.getLast?.map (fun j => j.IAuthor)) = some "" from rfl] at h
  exact absurd (Option.some.inj h) (by decide)

/-- Claim C4 (amended): for every accepted episode whose iTunes author is
empty at insertion, the stored iTunes author is the episode's own author's
email whenever an Author record is present (even when that email is
empty), else the feed's iTunes author when non-empty, else the feed's
managing editor when non-empty, else empty; a non-empty episode iTunes
author is left unchanged. -/
theorem addItem_iauthor_chain (f : Option Time → String) (p : Podcast) (i : Item)
    (hok : (p.AddItem f i).err = none) :
    ∃ j, (p.AddItem f i).podcast.Items.getLast? = some j
      ∧ j.IAuthor
          = (if i.IAuthor = "" then
              match i.Author with
              | some a => a.Email
              | none =>
                if p.IAuthor ≠ "" then p.IAuthor
                else if p.ManagingEditor ≠ "" then p.ManagingEditor
                else ""
            else i.IAuthor) := by
  have hv : addItemValidate i = none := by rw [← addItem_err f p i]; exact hok
  obtain ⟨_, _, _, _, hia⟩ := addItemFinalize_proj f p i
  refine ⟨addItemFinalize f p i, ?_, ?_⟩
  · rw [addItem_items f p i hv, List.getLast?_concat]
  · rw [hia]
    by_cases h0 : i.IAuthor = ""
    · cases ha : i.Author with
      | some a => simp [string_length_eq_zero_iff, h0]
      | none =>
        by_cases hpa : p.IAuthor = ""
        · by_cases hpm : p.ManagingEditor = ""
          · simp [string_length_eq_zero_iff, h0, hpa, hpm]
          · simp [string_length_eq_zero_iff, h0, hpa, hpm]
        · simp [string_length_eq_zero_iff, h0, hpa]
    · simp [string_length_eq_zero_iff, h0]

/-- Claim C4 witness: an accepted episode with no author inherits the
feed's non-empty iTunes author. -/
theorem addItem_iauthor_chain_check :
    ∃ j, (pFeedAuthor.AddItem fmtW iLink).podcast.Items.getLast? = some j
      ∧ j.IAuthor
          = (if iLink.IAuthor = "" then
              match iLink.Author with
              | some a => a.Email
              | none =>
                if pFeedAuthor.IAuthor ≠ "" then pFeedAuthor.IAuthor
                else if pFeedAuthor.ManagingEditor ≠ "" then pFeedAuthor.ManagingEditor
                else ""
            else iLink.IAuthor) :=
  addItem_iauthor_chain fmtW pFeedAuthor iLink rfl
